import Mathlib

/-!
Shallow embedding of the Mixxx audio-engine clipping stage
(src/mixxx/src/engineclipping.h, with the appended dlgtrackinfomulti.cpp
translation unit) and of the OSS MIDI device-session lifecycle
(src/mixxx/src/midiobjectoss.h), together with theorems settling the
specification claims about them.

The bodies of EngineClipping::process and of the MidiObjectOSS member
functions are not part of the available sources (only their declarations
are), so those operations are modelled from the specification text, as
marked in their doc comments.  Everything taken from dlgtrackinfomulti.cpp
(addToTagSet, saveTracks) and the inline body of EngineClipping::notify is
translated directly from the source.
-/

namespace Mixxx

/-- Audio samples (CSAMPLE) are modelled as exact rationals: the clipping
transform performs only comparisons and assignments on sample values, never
arithmetic, so the embedding over an exact ordered field is faithful. -/
abbrev CSAMPLE := ℚ

/-- State of the EngineClipping node: `bulb` models the value held by the
clip-indicator ControlValue that the member `ControlEngine *bulb` is bound
to, and `buffer` models the contents of the private scratch buffer
`CSAMPLE *buffer`. -/
structure EngineClipping where
  bulb : ℚ
  buffer : List CSAMPLE
deriving DecidableEq

/-- Rational sign function, used to state the specification sentence
about `sign(x) * ceiling`. -/
def sgn (x : ℚ) : ℚ :=
  if 0 < x then 1 else if x < 0 then -1 else 0

/-- Modelled from the spec: clamp a single sample so that its magnitude
does not exceed the ceiling, preserving its sign (section 4.2 of the spec;
the body of `EngineClipping::process` is not under the available sources,
only its declaration in engineclipping.h is). -/
def clampSample (ceiling x : CSAMPLE) : CSAMPLE :=
  if ceiling < x then ceiling
  else if x < -ceiling then -ceiling
  else x

/-- Whether a sample gets clamped by the current call. -/
def isClamped (ceiling x : CSAMPLE) : Bool :=
  decide (ceiling < x) || decide (x < -ceiling)

/-- Identity of the C buffer that a returned `CSAMPLE *` aliases: either
the caller-supplied input buffer or the private scratch buffer of the
node.  The declaration in engineclipping.h is
`CSAMPLE *process(const CSAMPLE *, const int)`: the input is
const-qualified. -/
inductive BufPtr
  | input
  | scratch
deriving DecidableEq

/-- Modelled from the spec: `EngineClipping::process` (its body is missing
from the available sources).  Every sample is clamped to the ceiling while
preserving sign; after scanning all frames, 1.0 is written to the
clip-indicator ControlValue if any clamp occurred during this call, else
0.0 (the indicator reflects only the most recent invocation).  Because the
source declaration const-qualifies the input pointer and the class holds a
private scratch buffer, the clamped samples are written to the scratch
buffer and the returned pointer aliases the scratch buffer; the input
buffer is left untouched.  The result is the updated node state, the
identity of the returned buffer, and the contents of that buffer. -/
def process (_c : EngineClipping) (ceiling : ℚ) (input : List CSAMPLE) :
    EngineClipping × BufPtr × List CSAMPLE :=
  let out := input.map (clampSample ceiling)
  let clipped := input.any (isClamped ceiling)
  ({ bulb := if clipped then 1 else 0, buffer := out }, BufPtr.scratch, out)

/-- Translated from engineclipping.h line 28: `void notify(double) {};`
has an empty inline body, so it performs no state change at all.  (The
unused parameter mirrors the unnamed `double` parameter.) -/
def notify (c : EngineClipping) (_value : ℚ) : EngineClipping := c

/-- Translated from the anonymous namespace of dlgtrackinfomulti.cpp:
`addToTagSet` inserts the value into the set when the set is empty or does
not already contain the value, and otherwise leaves the set alone. -/
def addToTagSet {α : Type} [DecidableEq α] (s : Finset α) (v : α) : Finset α :=
  if s = ∅ ∨ v ∉ s then insert v s else s

/-- One track record, restricted to the fields that
`DlgTrackInfoMulti::saveTracks` touches: text tags, color, star rating and
the track id used to look the track up in the loaded-track map. -/
structure TrackRec where
  id : Nat
  title : String
  artist : String
  album : String
  albumArtist : String
  genre : String
  composer : String
  grouping : String
  year : String
  key : String
  trackNumber : String
  comment : String
  color : Option Nat
  rating : Nat
deriving DecidableEq

/-- State of the multi-track dialog as far as saveTracks is concerned.
`loadedTracks` models `m_pLoadedTracks` (a map from track id to the track,
a track being modelled by its current record); `trackRecords` models
`m_trackRecords`.  Each `edit*` field models the result of
`validEditText` on the corresponding combo box: `none` models a null
QString (the tag was not edited), `some t` a new text to apply. -/
structure DlgTrackInfoMulti where
  loadedTracks : List (Nat × TrackRec)
  trackRecords : List TrackRec
  editTitle : Option String
  editArtist : Option String
  editAlbum : Option String
  editAlbumArtist : Option String
  editGenre : Option String
  editComposer : Option String
  editGrouping : Option String
  editYear : Option String
  editKey : Option String
  editTrackNumber : Option String
  editComment : Option String
  colorChanged : Bool
  newColor : Option Nat
  starRatingModified : Bool
  newRating : Nat
deriving DecidableEq

/-- Apply one optional tag edit. -/
def applyTag (e : Option String) (set : String → TrackRec → TrackRec)
    (r : TrackRec) : TrackRec :=
  match e with
  | some t => set t r
  | none => r

/-- The per-record body of the first loop of saveTracks: every non-null
edited value is written into the record, then color and rating when their
modified flags are set. -/
def applyEdits (d : DlgTrackInfoMulti) (r : TrackRec) : TrackRec :=
  let r := applyTag d.editTitle (fun t x => { x with title := t }) r
  let r := applyTag d.editArtist (fun t x => { x with artist := t }) r
  let r := applyTag d.editAlbum (fun t x => { x with album := t }) r
  let r := applyTag d.editAlbumArtist (fun t x => { x with albumArtist := t }) r
  let r := applyTag d.editGenre (fun t x => { x with genre := t }) r
  let r := applyTag d.editComposer (fun t x => { x with composer := t }) r
  let r := applyTag d.editGrouping (fun t x => { x with grouping := t }) r
  let r := applyTag d.editYear (fun t x => { x with year := t }) r
  let r := applyTag d.editKey (fun t x => { x with key := t }) r
  let r := applyTag d.editTrackNumber (fun t x => { x with trackNumber := t }) r
  let r := applyTag d.editComment (fun t x => { x with comment := t }) r
  let r := if d.colorChanged then { r with color := d.newColor } else r
  if d.starRatingModified then { r with rating := d.newRating } else r

/-- Translated from `DlgTrackInfoMulti::saveTracks` in
dlgtrackinfomulti.cpp: if no tracks are loaded the function returns
immediately; otherwise the pending edits are applied to every track
record, each record is pushed into the matching loaded track
(Track::replaceRecord), and the dialog is repopulated from the updated
tracks (updateFromTracks, modelled as rebuilding `trackRecords` from
`loadedTracks`). -/
def saveTracks (d : DlgTrackInfoMulti) : DlgTrackInfoMulti :=
  if d.loadedTracks.isEmpty then d
  else
    let recs := d.trackRecords.map (applyEdits d)
    let tracks := d.loadedTracks.map (fun p =>
      match recs.find? (fun r => r.id == p.1) with
      | some r => (p.1, r)
      | none => p)
    { d with loadedTracks := tracks, trackRecords := tracks.map Prod.snd }

/-- Lifecycle states of a DeviceSession.  Modelled from the spec: the
member-function bodies of MidiObjectOSS are not under the available
sources, only the class declaration in midiobjectoss.h is. -/
inductive SessionState
  | Closed
  | Opening
  | Running
  | Stopping
deriving DecidableEq

/-- Synchronous error taxonomy of `open`. -/
inductive DevError
  | DeviceUnavailable
deriving DecidableEq

/-- A device session: its lifecycle state, the device handle (`none` while
no handle is held, modelling the `int handle` member being invalid) and
whether the background read thread is alive (the thread behind the
`thread_pid` member). -/
structure Session where
  st : SessionState
  handle : Option Nat
  threadRunning : Bool
deriving DecidableEq

/-- A session starts out Closed, holding no handle and no thread. -/
def initialSession : Session := ⟨SessionState.Closed, none, false⟩

/-- The lifecycle operations the owning application thread may invoke.
`devOpenOp r` carries the result of resolving the device identifier to a
handle (`none` when the identifier cannot be resolved or the handle cannot
be acquired). -/
inductive Op
  | devOpenOp (resolved : Option Nat)
  | startOp
  | stopOp
deriving DecidableEq

/-- Modelled from the spec (section 4.3): the successive session states an
operation drives the session through.  `open` acquires the handle and
moves Closed to Opening, and on failure leaves the session untouched;
`start` spawns the background read thread and moves Opening to Running;
`stop` signals the thread (Running to Stopping), joins it, then releases
the handle and buffer (Stopping to Closed).  An operation invoked from any
other state leaves the session unchanged, so stop on an already Closed
session is a no-op. -/
def opStates : Op → Session → List Session
  | Op.devOpenOp (some h), s =>
      if s.st = SessionState.Closed then [⟨SessionState.Opening, some h, false⟩] else []
  | Op.devOpenOp none, _ => []
  | Op.startOp, s =>
      if s.st = SessionState.Opening then [⟨SessionState.Running, s.handle, true⟩] else []
  | Op.stopOp, s =>
      if s.st = SessionState.Running then
        [⟨SessionState.Stopping, s.handle, true⟩, ⟨SessionState.Closed, none, false⟩]
      else []

/-- The session state after an operation completes: the last state the
operation entered, or the original state when it entered none. -/
def applyOp (o : Op) (s : Session) : Session :=
  (opStates o s).getLastD s

/-- Modelled from the spec: the synchronous interface of `open`, returning
the updated session and an optional error.  When the identifier does not
resolve (or the handle cannot be acquired), the error DeviceUnavailable is
reported to the caller and the session is left exactly as it was. -/
def devOpen (resolved : Option Nat) (s : Session) : Session × Option DevError :=
  match resolved with
  | some h => (applyOp (Op.devOpenOp (some h)) s, none)
  | none => (s, some DevError.DeviceUnavailable)

/-- The states a session passes through while a list of operations runs. -/
def runStates : Session → List Op → List Session
  | _, [] => []
  | s, o :: os => opStates o s ++ runStates (applyOp o s) os

/-- The full state trace of a session driven from the initial state. -/
def sessionTrace (ops : List Op) : List Session :=
  initialSession :: runStates initialSession ops

/-- The session reached after a list of operations. -/
def reach (ops : List Op) : Session :=
  ops.foldl (fun s o => applyOp o s) initialSession

/-- The unique successor in the lifecycle cycle
Closed to Opening to Running to Stopping and back to Closed. -/
def cycleNext : SessionState → SessionState
  | SessionState.Closed => SessionState.Opening
  | SessionState.Opening => SessionState.Running
  | SessionState.Running => SessionState.Stopping
  | SessionState.Stopping => SessionState.Closed

/-- Interleaved execution: either the application thread performs a
lifecycle operation, or the background read thread performs one blocking
read that republishes a value into the ControlRegistry. -/
inductive Act
  | app (o : Op)
  | threadRead (v : ℚ)
deriving DecidableEq

/-- Observable events: a write into the ControlRegistry performed by the
background read thread of the session. -/
inductive Evt
  | regWrite (v : ℚ)
deriving DecidableEq

/-- Modelled from the spec: one scheduler step.  A background-thread step
can only happen while the session's thread is alive; it then writes the
decoded value into the ControlRegistry. -/
def stepAct (s : Session) : Act → Session × List Evt
  | Act.app o => (applyOp o s, [])
  | Act.threadRead v => if s.threadRunning then (s, [Evt.regWrite v]) else (s, [])

/-- The ControlRegistry writes emitted while a list of interleaved actions
runs from a given session. -/
def runActs (s : Session) : List Act → List Evt
  | [] => []
  | a :: as => (stepAct s a).2 ++ runActs (stepAct s a).1 as

/-- Samples all lying within the ceiling pass through the clamp
unchanged. -/
lemma map_clampSample_of_all_le (ceiling : ℚ) (input : List CSAMPLE)
    (h : ∀ x ∈ input, |x| ≤ ceiling) :
    input.map (clampSample ceiling) = input := by
  induction input with
  | nil => rfl
  | cons a l ih =>
    rcases abs_le.mp (h a (List.mem_cons_self a l)) with ⟨h1, h2⟩
    simp only [List.map_cons, clampSample, not_lt.mpr h2, if_false, if_neg (not_lt.mpr h1)]
    rw [ih (fun x hx => h x (List.mem_cons_of_mem _ hx))]

/-- A sample gets clamped exactly when its magnitude exceeds the
ceiling. -/
lemma isClamped_iff (ceiling x : ℚ) :
    isClamped ceiling x = true ↔ ceiling < |x| := by
  rw [isClamped, Bool.or_eq_true, decide_eq_true_iff, decide_eq_true_iff, lt_abs]
  constructor
  · rintro (h | h)
    · exact Or.inl h
    · exact Or.inr (by linarith)
  · rintro (h | h)
    · exact Or.inl h
    · exact Or.inr (by linarith)

/-- C1: for every input sample x, if |x| > ceiling the corresponding
output sample equals sign(x) * ceiling, and if |x| <= ceiling the output
sample equals x unchanged; in particular the buffer
[0.5, -1.5, 0.9, 1.2] with ceiling 1.0 yields [0.5, -1.0, 0.9, 1.0]. -/
theorem process_clamps_each_sample (c : EngineClipping) (ceiling : ℚ)
    (hc : 0 < ceiling) (input : List CSAMPLE) :
    (process c ceiling input).2.2 = input.map (clampSample ceiling) ∧
    (∀ x : ℚ, ceiling < |x| → clampSample ceiling x = sgn x * ceiling) ∧
    (∀ x : ℚ, |x| ≤ ceiling → clampSample ceiling x = x) ∧
    (process c 1 [1/2, -3/2, 9/10, 6/5]).2.2 = [1/2, -1, 9/10, 1] := by
  refine ⟨rfl, ?_, ?_, by norm_num [process, clampSample, isClamped]⟩
  · intro x hx
    rcases lt_abs.mp hx with h | h
    · have hx0 : 0 < x := hc.trans h
      rw [clampSample, if_pos h, sgn, if_pos hx0, one_mul]
    · have hxneg : x < -ceiling := by linarith
      have hx0 : x < 0 := by linarith
      rw [clampSample, if_neg (by linarith), if_pos hxneg, sgn,
        if_neg (not_lt.mpr hx0.le), if_pos hx0, neg_one_mul]
  · intro x hx
    rcases abs_le.mp hx with ⟨h1, h2⟩
    rw [clampSample, if_neg (not_lt.mpr h2), if_neg (not_lt.mpr h1)]

/-- Witness for C1 at ceiling 1 and the buffer of the end-to-end
scenario. -/
theorem process_clamps_each_sample_witness :
    (0 : ℚ) < 1 ∧
    (process ⟨0, []⟩ 1 [1/2, -3/2, 9/10, 6/5]).2.2 = [1/2, -1, 9/10, 1] :=
  ⟨by norm_num,
    (process_clamps_each_sample ⟨0, []⟩ 1 (by norm_num)
      [1/2, -3/2, 9/10, 6/5]).2.2.2⟩

/-- C2: after a process call that clamped at least one sample the
clip-indicator ControlValue equals 1.0, after a call that clamped none it
equals 0.0, and the value is the same whatever state earlier calls left
behind (the indicator is memoryless across calls, not latched). -/
theorem clip_indicator_memoryless (c c2 : EngineClipping) (ceiling : ℚ)
    (input : List CSAMPLE) :
    ((∃ x ∈ input, ceiling < |x|) → (process c ceiling input).1.bulb = 1) ∧
    ((∀ x ∈ input, |x| ≤ ceiling) → (process c ceiling input).1.bulb = 0) ∧
    (process c ceiling input).1.bulb = (process c2 ceiling input).1.bulb := by
  have hkey : input.any (isClamped ceiling) = true ↔ ∃ x ∈ input, ceiling < |x| := by
    rw [List.any_eq_true]
    constructor
    · rintro ⟨x, hx, hcl⟩
      exact ⟨x, hx, (isClamped_iff ceiling x).mp hcl⟩
    · rintro ⟨x, hx, hlt⟩
      exact ⟨x, hx, (isClamped_iff ceiling x).mpr hlt⟩
  refine ⟨?_, ?_, rfl⟩
  · intro hex
    have h := hkey.mpr hex
    simp [process, h]
  · intro hall
    have h : input.any (isClamped ceiling) = false := by
      rw [Bool.eq_false_iff]
      intro hany
      rcases hkey.mp hany with ⟨x, hx, hlt⟩
      exact absurd (hall x hx) (not_le.mpr hlt)
    simp [process, h]

/-- Witness for C2: the clamp-then-clean sequence of the end-to-end
scenario shows indicator 1.0 and then 0.0. -/
theorem clip_indicator_memoryless_witness :
    (process ⟨0, []⟩ 1 [1/2, -3/2, 9/10, 6/5]).1.bulb = 1 ∧
    (process (process ⟨0, []⟩ 1 [1/2, -3/2, 9/10, 6/5]).1 1 [1/10, -1/5]).1.bulb = 0 :=
  ⟨(clip_indicator_memoryless ⟨0, []⟩ ⟨0, []⟩ 1 [1/2, -3/2, 9/10, 6/5]).1
      ⟨-3/2, by norm_num, by rw [abs_of_nonpos (by norm_num)]; norm_num⟩,
    (clip_indicator_memoryless (process ⟨0, []⟩ 1 [1/2, -3/2, 9/10, 6/5]).1
        ⟨0, []⟩ 1 [1/10, -1/5]).2.1
      (by
        intro x hx
        rcases List.mem_cons.mp hx with rfl | hx
        · rw [abs_of_nonneg (by norm_num)]; norm_num
        · rcases List.mem_cons.mp hx with rfl | hx
          · rw [abs_of_nonpos (by norm_num)]; norm_num
          · simp at hx)⟩

/-- C6 counterexample: the pointer returned by process does not alias the
caller-supplied input buffer (the input is const-qualified and the clamped
samples land in the private scratch buffer). -/
theorem process_returns_scratch_counterexample :
    (process ⟨0, []⟩ 1 [3/2]).2.1 ≠ BufPtr.input := by decide

/-- C6 amended: process leaves the const-qualified input buffer
unmodified, writes the clamped samples into the node's private scratch
buffer, and returns that scratch buffer; when no sample exceeds the
ceiling the returned contents coincide with the input values, yet the
returned pointer is still the scratch buffer. -/
theorem process_returns_scratch (c : EngineClipping) (ceiling : ℚ)
    (input : List CSAMPLE) :
    (process c ceiling input).2.1 = BufPtr.scratch ∧
    (process c ceiling input).1.buffer = input.map (clampSample ceiling) ∧
    (process c ceiling input).2.2 = (process c ceiling input).1.buffer ∧
    ((∀ x ∈ input, |x| ≤ ceiling) → (process c ceiling input).2.2 = input) :=
  ⟨rfl, rfl, rfl, fun hall => map_clampSample_of_all_le ceiling input hall⟩

/-- Witness for the amended C6 on a clean two-sample buffer. -/
theorem process_returns_scratch_witness :
    (process ⟨0, []⟩ 1 [1/2, -1/5]).2.1 = BufPtr.scratch ∧
    (process ⟨0, []⟩ 1 [1/2, -1/5]).2.2 = [1/2, -1/5] :=
  ⟨(process_returns_scratch ⟨0, []⟩ 1 [1/2, -1/5]).1,
    (process_returns_scratch ⟨0, []⟩ 1 [1/2, -1/5]).2.2.2
      (by
        intro x hx
        rcases List.mem_cons.mp hx with rfl | hx
        · rw [abs_of_nonneg (by norm_num)]; norm_num
        · rcases List.mem_cons.mp hx with rfl | hx
          · rw [abs_of_nonpos (by norm_num)]; norm_num
          · simp at hx)⟩

/-- C8: notify is a no-op for every argument: the node state (indicator
binding and scratch buffer) is unchanged and every subsequent process call
behaves exactly as if notify had never been called. -/
theorem notify_is_noop (c : EngineClipping) (v : ℚ) :
    notify c v = c ∧
    (notify c v).bulb = c.bulb ∧
    (notify c v).buffer = c.buffer ∧
    ∀ (ceiling : ℚ) (input : List CSAMPLE),
      process (notify c v) ceiling input = process c ceiling input :=
  ⟨rfl, rfl, rfl, fun _ _ => rfl⟩

/-- C9: addToTagSet produces exactly the union with the singleton:
inserting a present value leaves the set unchanged, inserting a new value
adds only that value. -/
theorem addToTagSet_eq_union {α : Type} [DecidableEq α] (s : Finset α) (v : α) :
    addToTagSet s v = s ∪ {v} ∧
    (v ∈ s → addToTagSet s v = s) ∧
    (v ∉ s → addToTagSet s v = insert v s) := by
  by_cases hv : v ∈ s
  · have hcond : ¬ (s = ∅ ∨ v ∉ s) := by
      rintro (h | h)
      · rw [h] at hv
        exact absurd hv (Finset.not_mem_empty v)
      · exact h hv
    refine ⟨?_, fun _ => ?_, fun h => absurd hv h⟩ <;>
      rw [addToTagSet, if_neg hcond]
    rw [Finset.union_comm, ← Finset.insert_eq]
    exact (Finset.insert_eq_self.mpr hv).symm
  · have hcond : s = ∅ ∨ v ∉ s := Or.inr hv
    refine ⟨?_, fun h => absurd h hv, fun _ => ?_⟩ <;>
      rw [addToTagSet, if_pos hcond]
    rw [Finset.union_comm, ← Finset.insert_eq]

/-- Witness for C9 on concrete sets of naturals. -/
theorem addToTagSet_eq_union_witness :
    addToTagSet ({1, 2} : Finset ℕ) 2 = {1, 2} ∧
    addToTagSet ({1, 2} : Finset ℕ) 3 = insert 3 {1, 2} :=
  ⟨(addToTagSet_eq_union ({1, 2} : Finset ℕ) 2).2.1 (by decide),
    (addToTagSet_eq_union ({1, 2} : Finset ℕ) 3).2.2 (by decide)⟩

/-- C10: when the loaded-track map is empty, saveTracks returns
immediately and the whole dialog state is untouched. -/
theorem saveTracks_empty_is_noop (d : DlgTrackInfoMulti)
    (h : d.loadedTracks = []) : saveTracks d = d := by
  rw [saveTracks, if_pos (by rw [h]; rfl)]

/-- Witness for C10 on the empty dialog. -/
theorem saveTracks_empty_is_noop_witness :
    saveTracks ⟨[], [], none, none, none, none, none, none, none, none,
        none, none, none, false, none, false, 0⟩ =
      ⟨[], [], none, none, none, none, none, none, none, none,
        none, none, none, false, none, false, 0⟩ :=
  saveTracks_empty_is_noop _ rfl

/-- Every state a run of lifecycle operations drives the session through
is the unique cycle successor of the state before it. -/
lemma runStates_chain (ops : List Op) : ∀ s : Session,
    List.Chain' (fun a b => b.st = cycleNext a.st) (s :: runStates s ops) := by
  induction ops with
  | nil => intro s; simp [runStates]
  | cons o os ih =>
    intro s
    cases o with
    | devOpenOp r =>
      cases r with
      | none =>
        simpa [runStates, applyOp, opStates] using ih s
      | some h =>
        by_cases hc : s.st = SessionState.Closed
        · simp only [runStates, applyOp, opStates, if_pos hc, List.getLastD,
            List.cons_append, List.nil_append, List.chain'_cons]
          exact ⟨by simp [cycleNext, hc], ih _⟩
        · simpa [runStates, applyOp, opStates, if_neg hc] using ih s
    | startOp =>
      by_cases hc : s.st = SessionState.Opening
      · simp only [runStates, applyOp, opStates, if_pos hc, List.getLastD,
          List.cons_append, List.nil_append, List.chain'_cons]
        exact ⟨by simp [cycleNext, hc], ih _⟩
      · simpa [runStates, applyOp, opStates, if_neg hc] using ih s
    | stopOp =>
      by_cases hc : s.st = SessionState.Running
      · simp only [runStates, applyOp, opStates, if_pos hc, List.getLastD,
          List.cons_append, List.nil_append, List.chain'_cons]
        exact ⟨by simp [cycleNext, hc], by simp [cycleNext], ih _⟩
      · simpa [runStates, applyOp, opStates, if_neg hc] using ih s

/-- C3: every reachable state sequence of a session follows exactly the
cycle Closed, Opening, Running, Stopping, Closed (each entered state is
the unique cycle successor of its predecessor, so no other transition
occurs), and stop on a session already Closed is a no-op leaving it
Closed. -/
theorem session_lifecycle_follows_cycle :
    (∀ ops : List Op,
      List.Chain' (fun a b => b.st = cycleNext a.st) (sessionTrace ops)) ∧
    (∀ s : Session, s.st = SessionState.Closed →
      applyOp Op.stopOp s = s ∧ (applyOp Op.stopOp s).st = SessionState.Closed) := by
  constructor
  · intro ops
    exact runStates_chain ops initialSession
  · intro s hs
    have hstop : applyOp Op.stopOp s = s := by
      have hne : ¬ s.st = SessionState.Running := by rw [hs]; intro h; cases h
      simp [applyOp, opStates, if_neg hne]
    exact ⟨hstop, by rw [hstop, hs]⟩

/-- Witness for C3: a full open, start, stop run satisfies the cycle
chain, and stop on the initial Closed session changes nothing. -/
theorem session_lifecycle_follows_cycle_witness :
    List.Chain' (fun a b => b.st = cycleNext a.st)
      (sessionTrace [Op.devOpenOp (some 3), Op.startOp, Op.stopOp]) ∧
    applyOp Op.stopOp initialSession = initialSession :=
  ⟨session_lifecycle_follows_cycle.1 [Op.devOpenOp (some 3), Op.startOp, Op.stopOp],
    (session_lifecycle_follows_cycle.2 initialSession rfl).1⟩

/-- C4: when the device identifier cannot be resolved or the handle cannot
be acquired, open reports DeviceUnavailable synchronously and the session
is left exactly as it was; from the Closed resting state this means state
Closed, no thread spawned and no handle held. -/
theorem open_unavailable_atomic (s : Session)
    (hs : s.st = SessionState.Closed) (hh : s.handle = none)
    (ht : s.threadRunning = false) :
    devOpen none s = (s, some DevError.DeviceUnavailable) ∧
    (devOpen none s).1.st = SessionState.Closed ∧
    (devOpen none s).1.handle = none ∧
    (devOpen none s).1.threadRunning = false :=
  ⟨rfl, hs, hh, ht⟩

/-- Witness for C4 at the initial session. -/
theorem open_unavailable_atomic_witness :
    devOpen none initialSession = (initialSession, some DevError.DeviceUnavailable) ∧
    (devOpen none initialSession).1.st = SessionState.Closed :=
  ⟨(open_unavailable_atomic initialSession rfl rfl rfl).1,
    (open_unavailable_atomic initialSession rfl rfl rfl).2.1⟩

/-- The background thread is alive only while the session is Running: an
invariant of every operation. -/
lemma applyOp_thread_invariant (o : Op) (s : Session)
    (h : s.threadRunning = true → s.st = SessionState.Running) :
    (applyOp o s).threadRunning = true → (applyOp o s).st = SessionState.Running := by
  cases o with
  | devOpenOp r =>
    cases r with
    | none => simpa [applyOp, opStates] using h
    | some hdl =>
      by_cases hc : s.st = SessionState.Closed
      · simp [applyOp, opStates, if_pos hc, List.getLastD]
      · simpa [applyOp, opStates, if_neg hc] using h
  | startOp =>
    by_cases hc : s.st = SessionState.Opening
    · simp [applyOp, opStates, if_pos hc, List.getLastD]
    · simpa [applyOp, opStates, if_neg hc] using h
  | stopOp =>
    by_cases hc : s.st = SessionState.Running
    · simp [applyOp, opStates, if_pos hc, List.getLastD]
    · simpa [applyOp, opStates, if_neg hc] using h

/-- Every reachable session keeps its thread alive only in the Running
state. -/
lemma reach_thread_invariant (ops : List Op) :
    (reach ops).threadRunning = true → (reach ops).st = SessionState.Running := by
  have main : ∀ (l : List Op) (s : Session),
      (s.threadRunning = true → s.st = SessionState.Running) →
      ((l.foldl (fun t o => applyOp o t) s).threadRunning = true →
        (l.foldl (fun t o => applyOp o t) s).st = SessionState.Running) := by
    intro l
    induction l with
    | nil => intro s h; simpa using h
    | cons o os ih =>
      intro s h
      rw [List.foldl_cons]
      exact ih (applyOp o s) (applyOp_thread_invariant o s h)
  exact main ops initialSession (by intro h; simp [initialSession] at h)

/-- After stop completes on a session whose thread obeys the invariant,
the thread has exited. -/
lemma stop_kills_thread (s : Session)
    (h : s.threadRunning = true → s.st = SessionState.Running) :
    (applyOp Op.stopOp s).threadRunning = false := by
  by_cases hc : s.st = SessionState.Running
  · simp [applyOp, opStates, if_pos hc, List.getLastD]
  · have : s.threadRunning = false := by
      cases hr : s.threadRunning
      · rfl
      · exact absurd (h hr) hc
    simpa [applyOp, opStates, if_neg hc] using this

/-- Without a start operation, a dead thread stays dead and emits no
registry writes. -/
lemma runActs_no_write (acts : List Act) : ∀ s : Session,
    s.threadRunning = false → (∀ a ∈ acts, a ≠ Act.app Op.startOp) →
    runActs s acts = [] := by
  induction acts with
  | nil => intro s _ _; rfl
  | cons a as ih =>
    intro s hs hns
    have hrest := fun x hx => hns x (List.mem_cons_of_mem a hx)
    cases a with
    | threadRead v =>
      have hcond : ¬ (s.threadRunning = true) := by
        rw [hs]; exact Bool.false_ne_true
      simp only [runActs, stepAct, if_neg hcond, List.nil_append]
      exact ih s hs hrest
    | app o =>
      have ho : o ≠ Op.startOp := by
        intro h
        exact absurd (by rw [h]) (hns (Act.app o) (List.mem_cons_self _ _))
      have hthread : (applyOp o s).threadRunning = false := by
        cases o with
        | devOpenOp r =>
          cases r with
          | none => simpa [applyOp, opStates] using hs
          | some hdl =>
            by_cases hc : s.st = SessionState.Closed
            · simp [applyOp, opStates, if_pos hc, List.getLastD]
            · simpa [applyOp, opStates, if_neg hc] using hs
        | startOp => exact absurd rfl ho
        | stopOp =>
          by_cases hc : s.st = SessionState.Running
          · simp [applyOp, opStates, if_pos hc, List.getLastD]
          · simpa [applyOp, opStates, if_neg hc] using hs
      simp only [runActs, stepAct, List.nil_append]
      exact ih (applyOp o s) hthread hrest

/-- C5: stop joins the background read thread before returning: on every
reachable session the thread has fully exited once stop completes, and no
ControlRegistry write from that session's thread can occur in any
subsequent execution that does not start a new thread. -/
theorem stop_joins_thread_no_writes (ops : List Op) (acts : List Act)
    (hns : ∀ a ∈ acts, a ≠ Act.app Op.startOp) :
    (applyOp Op.stopOp (reach ops)).threadRunning = false ∧
    runActs (applyOp Op.stopOp (reach ops)) acts = [] := by
  have hdead := stop_kills_thread (reach ops) (reach_thread_invariant ops)
  exact ⟨hdead, runActs_no_write acts _ hdead hns⟩

/-- Witness for C5: after open, start, stop, pending thread reads produce
no registry write at all. -/
theorem stop_joins_thread_no_writes_witness :
    (applyOp Op.stopOp (reach [Op.devOpenOp (some 1), Op.startOp])).threadRunning = false ∧
    runActs (applyOp Op.stopOp (reach [Op.devOpenOp (some 1), Op.startOp]))
      [Act.threadRead 5, Act.app Op.stopOp, Act.threadRead 7] = [] :=
  stop_joins_thread_no_writes [Op.devOpenOp (some 1), Op.startOp]
    [Act.threadRead 5, Act.app Op.stopOp, Act.threadRead 7] (by decide)

end Mixxx
